import Mathlib

/-!
Shallow embedding of `plugin.go` from the gotify-github-plugin repository.

The plugin is a Gotify plugin that polls the GitHub API for notifications
and (optionally) repository stars, and forwards newly observed events to
the Gotify message handler.  We model:

  * the plugin state (`MyPlugin` struct fields relevant to the claims);
  * configuration validation (`ValidateAndSetConfig`, `ApplyConfig`);
  * the baseline population at Enable time (`fetchInitialState`,
    `fetchInitialStars`);
  * one polling tick (`checkNotifications`, `checkStars`, and the tick
    body of `startPolling`), as pure functions from the fetch results of
    that tick to the new seen-state and the list of dispatched identities;
  * the network calls issued by each phase, as an explicit call trace;
  * an interleaving small-step semantics for the polling goroutine(s),
    `Enable` and `Disable`, faithful to Go channel/close/select semantics
    as used by `startPolling` and `Disable`.

Remote fetches are modelled by their outcome: `none` stands for any
failure of that single round trip (transport error, read error, or
malformed payload — the code treats all three alike, logging and
returning/continuing), `some xs` for a successful decode yielding `xs`.
Request construction (`http.NewRequest`) never fails for the constant
well-formed URLs used here, so it is not modelled as a failure point.
Time-valued bookkeeping fields (`lastCheckTime`, `lastStarCheckTime`) and
logging are not modelled: no claim depends on them.
-/

set_option linter.unusedVariables false

/-- Structure `GithubNotification` from plugin.go (the fields the plugin reads). -/
structure GithubNotification where
  id : String
  repoFullName : String
  subjectTitle : String
  subjectType : String
  subjectURL : String
deriving DecidableEq, Repr

/-- Outcome of fetching the stargazers of one repository in a star-check
cycle: the repository's `full_name` and either `none` (that single
stargazer round trip failed; the code logs and `continue`s) or the list
of starring users' logins. -/
structure RepoFetch where
  fullName : String
  stars : Option (List String)
deriving DecidableEq, Repr

/-- The relevant fields of the `MyPlugin` struct.  The seen maps
`map[string]bool` are modelled as lists of keys (a key is in the map iff
it is in the list); `pollInterval` is kept in seconds as the integer the
configuration supplies. -/
structure PluginState where
  enabled : Bool
  githubToken : String
  pollIntervalSec : Int
  appToken : String
  watchStars : Bool
  appID : Nat
  ctxID : Nat
  seenNotifications : List String
  seenStars : List String
deriving DecidableEq, Repr

/-- Function `NewGotifyPluginInstance`: initial plugin state for a user context. -/
def newPluginInstance (ctxID : Nat) : PluginState :=
  { enabled := false
    githubToken := ""
    pollIntervalSec := 60
    appToken := ""
    watchStars := false
    appID := ctxID
    ctxID := ctxID
    seenNotifications := []
    seenStars := [] }

/-- The star identity key: `fmt.Sprintf("%s:%s", repo.FullName, star.User.Login)`. -/
def starKey (repo user : String) : String := repo ++ ":" ++ user

/-- The notification-processing loop of `checkNotifications`
(plugin.go lines 275–301): for each fetched notification, if its ID is
not in the seen map, mark it seen and send a message.  `sendOk` is the
message handler's verdict for each send; the code only logs it, in both
branches.  Returns the new seen map and the IDs dispatched, in order. -/
def processNotifications (sendOk : String → Bool) (seen : List String) :
    List GithubNotification → List String × List String
  | [] => (seen, [])
  | n :: rest =>
    if n.id ∈ seen then
      processNotifications sendOk seen rest
    else
      let _sent := sendOk n.id
      let r := processNotifications sendOk (n.id :: seen) rest
      (r.1, n.id :: r.2)

/-- Function `checkNotifications` (plugin.go lines 246–302): fetch the
notifications; on any failure of the round trip, log and return with
nothing dispatched and the seen map unchanged; otherwise process them. -/
def checkNotifications (sendOk : String → Bool) (seen : List String)
    (fetch : Option (List GithubNotification)) : List String × List String :=
  match fetch with
  | none => (seen, [])
  | some ns => processNotifications sendOk seen ns

/-- The per-repository stargazer loop body of `checkStars`
(plugin.go lines 369–393): for each star, if its key is not in the seen
map, mark it seen and send a message (send result only logged). -/
def processStarUsers (sendOk : String → Bool) (repo : String) (seen : List String) :
    List String → List String × List String
  | [] => (seen, [])
  | u :: rest =>
    if starKey repo u ∈ seen then
      processStarUsers sendOk repo seen rest
    else
      let _sent := sendOk (starKey repo u)
      let r := processStarUsers sendOk repo (starKey repo u :: seen) rest
      (r.1, starKey repo u :: r.2)

/-- The repository loop of `checkStars` (plugin.go lines 334–394): for
each repository, fetch its stargazers; a failed stargazer round trip is
logged and skipped (`continue`), otherwise the stars are processed. -/
def processRepos (sendOk : String → Bool) (seen : List String) :
    List RepoFetch → List String × List String
  | [] => (seen, [])
  | r :: rest =>
    match r.stars with
    | none => processRepos sendOk seen rest
    | some users =>
      let r1 := processStarUsers sendOk r.fullName seen users
      let r2 := processRepos sendOk r1.1 rest
      (r2.1, r1.2 ++ r2.2)

/-- Function `checkStars` (plugin.go lines 304–395): fetch the repository list; on
failure return with nothing dispatched; otherwise walk the repositories. -/
def checkStars (sendOk : String → Bool) (seen : List String)
    (fetch : Option (List RepoFetch)) : List String × List String :=
  match fetch with
  | none => (seen, [])
  | some repos => processRepos sendOk seen repos

/-- The environment of one tick: the outcome of the notifications fetch,
the outcome of the repository-list fetch together with the per-repository
stargazer outcomes, and the message handler's per-identity verdict. -/
structure TickInput where
  notifFetch : Option (List GithubNotification)
  starFetch : Option (List RepoFetch)
  sendOk : String → Bool

/-- Identities dispatched during one tick, split by kind. -/
structure TickOutput where
  notifIds : List String
  starKeys : List String
deriving DecidableEq, Repr

/-- The tick body of `startPolling` (plugin.go lines 230–238):
`checkNotifications()`, then `checkStars()` iff `watchStars`. -/
def applyTick (p : PluginState) (inp : TickInput) : PluginState × TickOutput :=
  let rn := checkNotifications inp.sendOk p.seenNotifications inp.notifFetch
  if p.watchStars then
    let rs := checkStars inp.sendOk p.seenStars inp.starFetch
    ({ p with seenNotifications := rn.1, seenStars := rs.1 }, ⟨rn.2, rs.2⟩)
  else
    ({ p with seenNotifications := rn.1 }, ⟨rn.2, []⟩)

/-- Run a sequence of ticks of one enabled session, returning the final
plugin state and the per-tick dispatched identities. -/
def runSession (p : PluginState) : List TickInput → PluginState × List TickOutput
  | [] => (p, [])
  | inp :: rest =>
    let r := applyTick p inp
    let rr := runSession r.1 rest
    (rr.1, r.2 :: rr.2)

/-- Final plugin state after a session's ticks. -/
def sessionState (p : PluginState) (inps : List TickInput) : PluginState :=
  (runSession p inps).1

/-- Per-tick dispatched identities of a session. -/
def sessionOutputs (p : PluginState) (inps : List TickInput) : List TickOutput :=
  (runSession p inps).2

example :
    (applyTick { newPluginInstance 1 with enabled := true }
      { notifFetch := some [⟨"N1", "r", "t", "Issue", "u"⟩]
        starFetch := none
        sendOk := fun _ => true }).2.notifIds = ["N1"] := by decide

/-- The fetch outcomes observed during baseline population at Enable
time (same shape as a tick's fetches; no message handler is involved,
since the baseline never sends). -/
structure BaselineInput where
  notifFetch : Option (List GithubNotification)
  starFetch : Option (List RepoFetch)
deriving Repr

/-- Marking step of `fetchInitialStars` for one repository
(plugin.go lines 177–211): a failed stargazer round trip is skipped
(`continue`); otherwise every star key is inserted into the seen map. -/
def markRepoStars (acc : List String) (r : RepoFetch) : List String :=
  match r.stars with
  | none => acc
  | some users => acc ++ users.map (fun u => starKey r.fullName u)

/-- Function `fetchInitialStars` (plugin.go lines 150–213): fetch the repository
list (on failure return, leaving the freshly cleared seen map empty),
then mark every star of every successfully fetched repository as seen.
No message is ever sent here. -/
def fetchInitialStars (starFetch : Option (List RepoFetch)) : List String :=
  match starFetch with
  | none => []
  | some repos => repos.foldl markRepoStars []

/-- Function `fetchInitialState` (plugin.go lines 114–148): fetch the
notifications; on any failure return early (both seen maps stay as the
fresh empty maps made by `Enable`, and in particular the initial stars
fetch is skipped).  On success mark every notification ID seen, then, iff
`watchStars`, run the initial stars fetch.  No message is ever sent here.
Returns the two seen maps `(seenNotifications, seenStars)`. -/
def fetchInitialState (watchStars : Bool) (inp : BaselineInput) :
    List String × List String :=
  match inp.notifFetch with
  | none => ([], [])
  | some ns =>
    (ns.map (fun n => n.id), if watchStars then fetchInitialStars inp.starFetch else [])

/-- One remote read operation. -/
inductive NetCall where
  | notifications
  | repositories
  | stargazers (repo : String)
deriving DecidableEq, Repr

/-- Network calls issued by `checkStars` / `fetchInitialStars`: the
repository-list request is always issued; one stargazer request per
listed repository follows iff the repository list was obtained. -/
def starPhaseCalls (starFetch : Option (List RepoFetch)) : List NetCall :=
  NetCall.repositories ::
    (match starFetch with
     | none => []
     | some repos => repos.map (fun r => NetCall.stargazers r.fullName))

/-- Network calls issued by one tick of `startPolling`: the notifications
request, then the star-phase requests iff `watchStars`. -/
def tickCalls (watchStars : Bool) (inp : TickInput) : List NetCall :=
  NetCall.notifications ::
    (if watchStars then starPhaseCalls inp.starFetch else [])

/-- Network calls issued by `fetchInitialState`: the notifications
request; the star-phase requests follow only when that request succeeded
(otherwise the function returned early) and `watchStars` is set. -/
def fetchInitialStateCalls (watchStars : Bool) (inp : BaselineInput) : List NetCall :=
  NetCall.notifications ::
    (match inp.notifFetch with
     | none => []
     | some _ => if watchStars then starPhaseCalls inp.starFetch else [])

/-- Network calls issued by a session's ticks. -/
def sessionCalls (watchStars : Bool) (inps : List TickInput) : List NetCall :=
  (inps.map (tickCalls watchStars)).flatten

/-- Result of `Enable` (plugin.go lines 88–112): the updated plugin
state, the network calls issued, the identities dispatched (none:
`Enable`, `fetchInitialState` and `fetchInitialStars` contain no
`SendMessage` call) and the returned error (`Enable` unconditionally
returns `nil`). -/
structure EnableResult where
  state : PluginState
  calls : List NetCall
  dispatched : List String
  err : Option String

/-- Function `Enable` (plugin.go lines 88–112): choose the application ID, set
`enabled`, make fresh (empty) seen maps, run `fetchInitialState`, then
make a new stop channel and start a polling goroutine (those two effects
live in the small-step system below).  No validation of any kind is
performed and `nil` is always returned. -/
def enablePlugin (p : PluginState) (inp : BaselineInput) : EnableResult :=
  let appID := if p.appToken ≠ "" then p.appID else p.ctxID
  let seen := fetchInitialState p.watchStars inp
  { state := { p with
      enabled := true
      appID := appID
      seenNotifications := seen.1
      seenStars := seen.2 }
    calls := fetchInitialStateCalls p.watchStars inp
    dispatched := []
    err := none }

/-- The typed configuration payload of `ValidateAndSetConfig`, together
with the outcomes of the two JSON codec steps: `marshalOk` is whether
`json.Marshal(cfg)` succeeds, `unmarshalOk` whether `json.Unmarshal`
into the struct succeeds; when both do, the decoded fields follow. -/
structure RawConfig where
  marshalOk : Bool
  unmarshalOk : Bool
  token : String
  interval : Int
  appToken : String
  watchStars : Bool
deriving DecidableEq, Repr

/-- Function `ValidateAndSetConfig` (plugin.go lines 61–86): marshal the incoming
value, unmarshal it into the typed struct, reject an empty token; only
then write the four configuration fields.  The interval is NOT checked:
any value, including zero and negatives, is accepted and stored.
Returns the Go error (`none` = `nil`) and the (possibly updated) state. -/
def validateAndSetConfig (p : PluginState) (raw : RawConfig) :
    Option String × PluginState :=
  if raw.marshalOk = false then (some "marshal error", p)
  else if raw.unmarshalOk = false then (some "unmarshal error", p)
  else if raw.token = "" then (some "GitHub token is required", p)
  else
    (none, { p with
      githubToken := raw.token
      pollIntervalSec := raw.interval
      appToken := raw.appToken
      watchStars := raw.watchStars })

/-- Function `ApplyConfig` (plugin.go lines 425–428): delegates to
`ValidateAndSetConfig`. -/
def applyConfig (p : PluginState) (raw : RawConfig) : Option String × PluginState :=
  validateAndSetConfig p raw

example :
    (fetchInitialState true
      { notifFetch := some [⟨"N1", "r", "t", "Issue", "u"⟩]
        starFetch := some [⟨"r", some ["alice"]⟩] }) = (["N1"], ["r:alice"]) := by decide

/-!
Small-step interleaving semantics for the concurrent part of the plugin:
the polling goroutine(s) started by `go c.startPolling()`, and the
synchronous `Enable`/`Disable` calls.

Stop channels are modelled by generation numbers: `chanGen` is the
channel currently stored in the `stopChannel` field, `closed` the set of
generations that have been closed.  Crucially, the `select` in
`startPolling` (plugin.go lines 229–242) re-evaluates the field
expression `c.stopChannel` at every iteration, so a loop observes the
generation current at select time, not the one current when it was
spawned.

A loop is at `atSelect` between ticks; taking the ticker branch moves it
to `inTick inp` (the tick's fetch outcomes fixed by the environment),
and executing the tick body is a separate step, so that `Disable` can
interleave with an in-flight tick — exactly the situation the Go code
permits, since `Disable` (plugin.go lines 215–222) only closes the
channel and returns, without waiting for the goroutine.  When the stop
channel is closed while a ticker fire is also pending, Go's `select`
chooses between the two ready cases nondeterministically, so `selectTick`
is not disabled by a closed channel.
-/

/-- Program counter of one polling goroutine. -/
inductive LoopPC where
  | atSelect
  | inTick (inp : TickInput)
  | exited

/-- State of the whole system: the shared plugin struct, the stop-channel
generations, and the polling goroutines. -/
structure Sys where
  plug : PluginState
  chanGen : Nat
  nextGen : Nat
  closed : List Nat
  loops : List LoopPC

/-- Observable label of one step. -/
inductive Label where
  | dispatch (i : Nat) (ids : List String)
  | enableRet
  | disableRet
  | tau
deriving DecidableEq, Repr

/-- Effect of `Enable` on the system: update the plugin struct via
`enablePlugin`, install a fresh stop channel (`c.stopChannel = make(...)`),
and spawn one more polling goroutine (`go c.startPolling()`). -/
def enableSys (s : Sys) (inp : BaselineInput) : Sys :=
  { plug := (enablePlugin s.plug inp).state
    chanGen := s.nextGen
    nextGen := s.nextGen + 1
    closed := s.closed
    loops := s.loops ++ [LoopPC.atSelect] }

/-- Effect of `Disable` on the system (plugin.go lines 215–222): iff
`enabled`, clear `enabled` and close the current stop channel; then
return.  Nothing waits for the goroutines. -/
def disableSys (s : Sys) : Sys :=
  if s.plug.enabled then
    { s with
      plug := { s.plug with enabled := false }
      closed := s.chanGen :: s.closed }
  else s

/-- Effect of one executed tick body on the system: the plugin's seen
maps are updated and the loop returns to its select. -/
def tickSys (s : Sys) (i : Nat) (inp : TickInput) : Sys :=
  { s with
    plug := (applyTick s.plug inp).1
    loops := s.loops.set i LoopPC.atSelect }

/-- One interleaved step of the system. -/
inductive Step : Sys → Label → Sys → Prop where
  /-- A loop at its select takes the ticker branch; the environment fixes
  this tick's fetch outcomes.  Permitted even when the stop channel is
  closed: if both cases are ready, Go's `select` picks one at random. -/
  | selectTick (s : Sys) (i : Nat) (inp : TickInput)
      (h : s.loops.get? i = some LoopPC.atSelect) :
      Step s Label.tau { s with loops := s.loops.set i (LoopPC.inTick inp) }
  /-- A loop at its select observes that the channel currently stored in
  the `stopChannel` field is closed, and exits. -/
  | selectStop (s : Sys) (i : Nat)
      (h : s.loops.get? i = some LoopPC.atSelect)
      (hc : s.chanGen ∈ s.closed) :
      Step s Label.tau { s with loops := s.loops.set i LoopPC.exited }
  /-- A loop executes its tick body: `checkNotifications` then, iff
  `watchStars`, `checkStars`; the dispatched identities are emitted. -/
  | runTickBody (s : Sys) (i : Nat) (inp : TickInput) (ids : List String)
      (h : s.loops.get? i = some (LoopPC.inTick inp))
      (hids : ids = (applyTick s.plug inp).2.notifIds ++ (applyTick s.plug inp).2.starKeys) :
      Step s (Label.dispatch i ids) (tickSys s i inp)
  /-- A caller runs `Enable` to completion. -/
  | enableCall (s : Sys) (inp : BaselineInput) :
      Step s Label.enableRet (enableSys s inp)
  /-- A caller runs `Disable` to completion. -/
  | disableCall (s : Sys) :
      Step s Label.disableRet (disableSys s)

/-- A finite execution, recording the labels of its steps. -/
inductive Trace : Sys → List Label → Sys → Prop where
  | nil (s : Sys) : Trace s [] s
  | cons {s s' s'' : Sys} {l : Label} {ls : List Label} :
      Step s l s' → Trace s' ls s'' → Trace s (l :: ls) s''

/-- The dispatch labels carrying at least one identity that occur after
the first `disableRet` of a label list (the alerts sent after the first
completed `Disable` call). -/
def postDisableDispatches : List Label → List Label
  | [] => []
  | Label.disableRet :: rest =>
    rest.filter (fun l => match l with
      | Label.dispatch _ ids => !ids.isEmpty
      | _ => false)
  | _ :: rest => postDisableDispatches rest

/-! Helper lemmas about the diff-and-dispatch loops. -/

theorem pn_mono (f : String → Bool) (ns : List GithubNotification) :
    ∀ seen a, a ∈ seen → a ∈ (processNotifications f seen ns).1 := by
  induction ns with
  | nil => intro seen a ha; simpa [processNotifications] using ha
  | cons n rest ih =>
    intro seen a ha
    by_cases h : n.id ∈ seen
    · simpa [processNotifications, h] using ih seen a ha
    · simpa [processNotifications, h] using ih (n.id :: seen) a (List.mem_cons_of_mem _ ha)

theorem pn_disp_mem (f : String → Bool) (ns : List GithubNotification) :
    ∀ seen a, a ∈ (processNotifications f seen ns).2 →
      a ∈ (processNotifications f seen ns).1 := by
  induction ns with
  | nil => intro seen a ha; simp [processNotifications] at ha
  | cons n rest ih =>
    intro seen a ha
    by_cases h : n.id ∈ seen
    · simp only [processNotifications, if_pos h] at ha ⊢
      exact ih seen a ha
    · simp only [processNotifications, if_neg h, List.mem_cons] at ha ⊢
      rcases ha with rfl | ha
      · exact pn_mono f rest _ _ (List.mem_cons_self _ _)
      · exact ih (n.id :: seen) a ha

theorem pn_seen_not_disp (f : String → Bool) (ns : List GithubNotification) :
    ∀ seen a, a ∈ seen → a ∉ (processNotifications f seen ns).2 := by
  induction ns with
  | nil => intro seen a _; simp [processNotifications]
  | cons n rest ih =>
    intro seen a ha
    by_cases h : n.id ∈ seen
    · simp only [processNotifications, if_pos h]
      exact ih seen a ha
    · simp only [processNotifications, if_neg h, List.mem_cons, not_or]
      constructor
      · rintro rfl; exact h ha
      · exact ih (n.id :: seen) a (List.mem_cons_of_mem _ ha)

theorem pn_nodup (f : String → Bool) (ns : List GithubNotification) :
    ∀ seen, (processNotifications f seen ns).2.Nodup := by
  induction ns with
  | nil => intro seen; simp [processNotifications]
  | cons n rest ih =>
    intro seen
    by_cases h : n.id ∈ seen
    · simp only [processNotifications, if_pos h]; exact ih seen
    · simp only [processNotifications, if_neg h, List.nodup_cons]
      exact ⟨pn_seen_not_disp f rest (n.id :: seen) n.id (List.mem_cons_self _ _),
             ih (n.id :: seen)⟩

theorem psu_mono (f : String → Bool) (repo : String) (us : List String) :
    ∀ seen a, a ∈ seen → a ∈ (processStarUsers f repo seen us).1 := by
  induction us with
  | nil => intro seen a ha; simpa [processStarUsers] using ha
  | cons u rest ih =>
    intro seen a ha
    by_cases h : starKey repo u ∈ seen
    · simpa [processStarUsers, h] using ih seen a ha
    · simpa [processStarUsers, h] using
        ih (starKey repo u :: seen) a (List.mem_cons_of_mem _ ha)

theorem psu_disp_mem (f : String → Bool) (repo : String) (us : List String) :
    ∀ seen a, a ∈ (processStarUsers f repo seen us).2 →
      a ∈ (processStarUsers f repo seen us).1 := by
  induction us with
  | nil => intro seen a ha; simp [processStarUsers] at ha
  | cons u rest ih =>
    intro seen a ha
    by_cases h : starKey repo u ∈ seen
    · simp only [processStarUsers, if_pos h] at ha ⊢
      exact ih seen a ha
    · simp only [processStarUsers, if_neg h, List.mem_cons] at ha ⊢
      rcases ha with rfl | ha
      · exact psu_mono f repo rest _ _ (List.mem_cons_self _ _)
      · exact ih (starKey repo u :: seen) a ha

theorem psu_seen_not_disp (f : String → Bool) (repo : String) (us : List String) :
    ∀ seen a, a ∈ seen → a ∉ (processStarUsers f repo seen us).2 := by
  induction us with
  | nil => intro seen a _; simp [processStarUsers]
  | cons u rest ih =>
    intro seen a ha
    by_cases h : starKey repo u ∈ seen
    · simp only [processStarUsers, if_pos h]
      exact ih seen a ha
    · simp only [processStarUsers, if_neg h, List.mem_cons, not_or]
      constructor
      · rintro rfl; exact h ha
      · exact ih (starKey repo u :: seen) a (List.mem_cons_of_mem _ ha)

theorem psu_nodup (f : String → Bool) (repo : String) (us : List String) :
    ∀ seen, (processStarUsers f repo seen us).2.Nodup := by
  induction us with
  | nil => intro seen; simp [processStarUsers]
  | cons u rest ih =>
    intro seen
    by_cases h : starKey repo u ∈ seen
    · simp only [processStarUsers, if_pos h]; exact ih seen
    · simp only [processStarUsers, if_neg h, List.nodup_cons]
      exact ⟨psu_seen_not_disp f repo rest (starKey repo u :: seen)
               (starKey repo u) (List.mem_cons_self _ _),
             ih (starKey repo u :: seen)⟩

theorem pr_mono (f : String → Bool) (rs : List RepoFetch) :
    ∀ seen a, a ∈ seen → a ∈ (processRepos f seen rs).1 := by
  induction rs with
  | nil => intro seen a ha; simpa [processRepos] using ha
  | cons r rest ih =>
    intro seen a ha
    cases hr : r.stars with
    | none => simpa [processRepos, hr] using ih seen a ha
    | some users =>
      simp only [processRepos, hr]
      exact ih _ a (psu_mono f r.fullName users seen a ha)

theorem pr_disp_mem (f : String → Bool) (rs : List RepoFetch) :
    ∀ seen a, a ∈ (processRepos f seen rs).2 → a ∈ (processRepos f seen rs).1 := by
  induction rs with
  | nil => intro seen a ha; simp [processRepos] at ha
  | cons r rest ih =>
    intro seen a ha
    cases hr : r.stars with
    | none =>
      simp only [processRepos, hr] at ha ⊢
      exact ih seen a ha
    | some users =>
      simp only [processRepos, hr, List.mem_append] at ha ⊢
      rcases ha with ha | ha
      · exact pr_mono f rest _ a (psu_disp_mem f r.fullName users seen a ha)
      · exact ih _ a ha

theorem pr_seen_not_disp (f : String → Bool) (rs : List RepoFetch) :
    ∀ seen a, a ∈ seen → a ∉ (processRepos f seen rs).2 := by
  induction rs with
  | nil => intro seen a _; simp [processRepos]
  | cons r rest ih =>
    intro seen a ha
    cases hr : r.stars with
    | none =>
      simp only [processRepos, hr]
      exact ih seen a ha
    | some users =>
      simp only [processRepos, hr, List.mem_append, not_or]
      exact ⟨psu_seen_not_disp f r.fullName users seen a ha,
             ih _ a (psu_mono f r.fullName users seen a ha)⟩

theorem pr_nodup (f : String → Bool) (rs : List RepoFetch) :
    ∀ seen, (processRepos f seen rs).2.Nodup := by
  induction rs with
  | nil => intro seen; simp [processRepos]
  | cons r rest ih =>
    intro seen
    cases hr : r.stars with
    | none => simp only [processRepos, hr]; exact ih seen
    | some users =>
      simp only [processRepos, hr]
      refine List.Nodup.append (psu_nodup f r.fullName users seen) (ih _) ?_
      intro a ha
      exact pr_seen_not_disp f rest _ a (psu_disp_mem f r.fullName users seen a ha)

/-! Tick-level lemmas. -/

theorem cn_mono (f : String → Bool) (seen : List String)
    (fetch : Option (List GithubNotification)) (a : String) (ha : a ∈ seen) :
    a ∈ (checkNotifications f seen fetch).1 := by
  cases fetch with
  | none => simpa [checkNotifications] using ha
  | some ns => exact pn_mono f ns seen a ha

theorem cn_disp_mem (f : String → Bool) (seen : List String)
    (fetch : Option (List GithubNotification)) (a : String)
    (ha : a ∈ (checkNotifications f seen fetch).2) :
    a ∈ (checkNotifications f seen fetch).1 := by
  cases fetch with
  | none => simp [checkNotifications] at ha
  | some ns => exact pn_disp_mem f ns seen a ha

theorem cn_seen_not_disp (f : String → Bool) (seen : List String)
    (fetch : Option (List GithubNotification)) (a : String) (ha : a ∈ seen) :
    a ∉ (checkNotifications f seen fetch).2 := by
  cases fetch with
  | none => simp [checkNotifications]
  | some ns => exact pn_seen_not_disp f ns seen a ha

theorem cn_nodup (f : String → Bool) (seen : List String)
    (fetch : Option (List GithubNotification)) :
    (checkNotifications f seen fetch).2.Nodup := by
  cases fetch with
  | none => simp [checkNotifications]
  | some ns => exact pn_nodup f ns seen

theorem cs_mono (f : String → Bool) (seen : List String)
    (fetch : Option (List RepoFetch)) (a : String) (ha : a ∈ seen) :
    a ∈ (checkStars f seen fetch).1 := by
  cases fetch with
  | none => simpa [checkStars] using ha
  | some rs => exact pr_mono f rs seen a ha

theorem cs_disp_mem (f : String → Bool) (seen : List String)
    (fetch : Option (List RepoFetch)) (a : String)
    (ha : a ∈ (checkStars f seen fetch).2) :
    a ∈ (checkStars f seen fetch).1 := by
  cases fetch with
  | none => simp [checkStars] at ha
  | some rs => exact pr_disp_mem f rs seen a ha

theorem cs_seen_not_disp (f : String → Bool) (seen : List String)
    (fetch : Option (List RepoFetch)) (a : String) (ha : a ∈ seen) :
    a ∉ (checkStars f seen fetch).2 := by
  cases fetch with
  | none => simp [checkStars]
  | some rs => exact pr_seen_not_disp f rs seen a ha

theorem cs_nodup (f : String → Bool) (seen : List String)
    (fetch : Option (List RepoFetch)) :
    (checkStars f seen fetch).2.Nodup := by
  cases fetch with
  | none => simp [checkStars]
  | some rs => exact pr_nodup f rs seen

theorem at_watch (p : PluginState) (inp : TickInput) :
    (applyTick p inp).1.watchStars = p.watchStars := by
  by_cases hw : p.watchStars <;> simp [applyTick, hw]

theorem at_mono_n (p : PluginState) (inp : TickInput) (a : String)
    (ha : a ∈ p.seenNotifications) :
    a ∈ (applyTick p inp).1.seenNotifications := by
  by_cases hw : p.watchStars <;>
    simpa [applyTick, hw] using cn_mono inp.sendOk p.seenNotifications inp.notifFetch a ha

theorem at_mono_s (p : PluginState) (inp : TickInput) (a : String)
    (ha : a ∈ p.seenStars) :
    a ∈ (applyTick p inp).1.seenStars := by
  by_cases hw : p.watchStars
  · simpa [applyTick, hw] using cs_mono inp.sendOk p.seenStars inp.starFetch a ha
  · simpa [applyTick, hw] using ha

theorem at_disp_mem_n (p : PluginState) (inp : TickInput) (a : String)
    (ha : a ∈ (applyTick p inp).2.notifIds) :
    a ∈ (applyTick p inp).1.seenNotifications := by
  by_cases hw : p.watchStars <;>
  · simp only [applyTick, hw] at ha ⊢
    simp at ha ⊢
    exact cn_disp_mem inp.sendOk p.seenNotifications inp.notifFetch a ha

theorem at_disp_mem_s (p : PluginState) (inp : TickInput) (a : String)
    (ha : a ∈ (applyTick p inp).2.starKeys) :
    a ∈ (applyTick p inp).1.seenStars := by
  by_cases hw : p.watchStars
  · simp only [applyTick, hw] at ha ⊢
    simp at ha ⊢
    exact cs_disp_mem inp.sendOk p.seenStars inp.starFetch a ha
  · simp [applyTick, hw] at ha

theorem at_seen_not_disp_n (p : PluginState) (inp : TickInput) (a : String)
    (ha : a ∈ p.seenNotifications) :
    a ∉ (applyTick p inp).2.notifIds := by
  by_cases hw : p.watchStars <;>
  · simp only [applyTick, hw]
    simp
    exact cn_seen_not_disp inp.sendOk p.seenNotifications inp.notifFetch a ha

theorem at_seen_not_disp_s (p : PluginState) (inp : TickInput) (a : String)
    (ha : a ∈ p.seenStars) :
    a ∉ (applyTick p inp).2.starKeys := by
  by_cases hw : p.watchStars
  · simp only [applyTick, hw]
    simp
    exact cs_seen_not_disp inp.sendOk p.seenStars inp.starFetch a ha
  · simp [applyTick, hw]

theorem at_nodup_n (p : PluginState) (inp : TickInput) :
    (applyTick p inp).2.notifIds.Nodup := by
  by_cases hw : p.watchStars <;>
  · simp only [applyTick, hw]
    simp
    exact cn_nodup inp.sendOk p.seenNotifications inp.notifFetch

theorem at_nodup_s (p : PluginState) (inp : TickInput) :
    (applyTick p inp).2.starKeys.Nodup := by
  by_cases hw : p.watchStars
  · simp only [applyTick, hw]
    simp
    exact cs_nodup inp.sendOk p.seenStars inp.starFetch
  · simp [applyTick, hw]

/-! Session-level lemmas. -/

theorem sessionOutputs_cons (p : PluginState) (inp : TickInput) (rest : List TickInput) :
    sessionOutputs p (inp :: rest) =
      (applyTick p inp).2 :: sessionOutputs (applyTick p inp).1 rest := rfl

theorem sessionOutputs_length (p : PluginState) (inps : List TickInput) :
    (sessionOutputs p inps).length = inps.length := by
  induction inps generalizing p with
  | nil => rfl
  | cons inp rest ih => simp [sessionOutputs_cons, ih]

theorem ss_mono_n (p : PluginState) (inps : List TickInput) (a : String)
    (ha : a ∈ p.seenNotifications) :
    a ∈ (sessionState p inps).seenNotifications := by
  induction inps generalizing p with
  | nil => simpa [sessionState, runSession] using ha
  | cons inp rest ih => exact ih (applyTick p inp).1 (at_mono_n p inp a ha)

theorem ss_mono_s (p : PluginState) (inps : List TickInput) (a : String)
    (ha : a ∈ p.seenStars) :
    a ∈ (sessionState p inps).seenStars := by
  induction inps generalizing p with
  | nil => simpa [sessionState, runSession] using ha
  | cons inp rest ih => exact ih (applyTick p inp).1 (at_mono_s p inp a ha)

theorem ss_seen_not_disp_n (p : PluginState) (inps : List TickInput) (a : String)
    (ha : a ∈ p.seenNotifications) :
    ∀ out ∈ sessionOutputs p inps, a ∉ out.notifIds := by
  induction inps generalizing p with
  | nil => intro out hout; simp [sessionOutputs, runSession] at hout
  | cons inp rest ih =>
    intro out hout
    rw [sessionOutputs_cons] at hout
    rcases List.mem_cons.mp hout with rfl | hout
    · exact at_seen_not_disp_n p inp a ha
    · exact ih (applyTick p inp).1 (at_mono_n p inp a ha) out hout

theorem ss_seen_not_disp_s (p : PluginState) (inps : List TickInput) (a : String)
    (ha : a ∈ p.seenStars) :
    ∀ out ∈ sessionOutputs p inps, a ∉ out.starKeys := by
  induction inps generalizing p with
  | nil => intro out hout; simp [sessionOutputs, runSession] at hout
  | cons inp rest ih =>
    intro out hout
    rw [sessionOutputs_cons] at hout
    rcases List.mem_cons.mp hout with rfl | hout
    · exact at_seen_not_disp_s p inp a ha
    · exact ih (applyTick p inp).1 (at_mono_s p inp a ha) out hout

theorem session_out_nodup : ∀ (inps : List TickInput) (p : PluginState),
    ∀ out ∈ sessionOutputs p inps, out.notifIds.Nodup ∧ out.starKeys.Nodup := by
  intro inps
  induction inps with
  | nil => intro p out hout; simp [sessionOutputs, runSession] at hout
  | cons inp rest ih =>
    intro p out hout
    rw [sessionOutputs_cons] at hout
    rcases List.mem_cons.mp hout with rfl | hout
    · exact ⟨at_nodup_n p inp, at_nodup_s p inp⟩
    · exact ih (applyTick p inp).1 out hout

theorem session_disp_not_later_n : ∀ (inps : List TickInput) (p : PluginState)
    (N M : Nat) (hN : N < (sessionOutputs p inps).length)
    (hM : M < (sessionOutputs p inps).length), N < M → ∀ k : String,
    k ∈ ((sessionOutputs p inps).get ⟨N, hN⟩).notifIds →
    k ∉ ((sessionOutputs p inps).get ⟨M, hM⟩).notifIds := by
  intro inps
  induction inps with
  | nil => intro p N M hN _ _ k _; simp [sessionOutputs, runSession] at hN
  | cons inp rest ih =>
    intro p N M hN hM hNM k hk
    have hlen : (sessionOutputs p (inp :: rest)).length =
        (sessionOutputs (applyTick p inp).1 rest).length + 1 := by
      rw [sessionOutputs_cons]; rfl
    cases M with
    | zero => exact absurd hNM (Nat.not_lt_zero N)
    | succ m =>
      have hM' : m < (sessionOutputs (applyTick p inp).1 rest).length := by
        rw [hlen] at hM; omega
      cases N with
      | zero =>
        have hseen : k ∈ (applyTick p inp).1.seenNotifications :=
          at_disp_mem_n p inp k hk
        exact ss_seen_not_disp_n (applyTick p inp).1 rest k hseen _
          (List.get_mem _ m hM')
      | succ n =>
        have hN' : n < (sessionOutputs (applyTick p inp).1 rest).length := by
          rw [hlen] at hN; omega
        exact ih (applyTick p inp).1 n m hN' hM' (Nat.lt_of_succ_lt_succ hNM) k hk

theorem session_disp_not_later_s : ∀ (inps : List TickInput) (p : PluginState)
    (N M : Nat) (hN : N < (sessionOutputs p inps).length)
    (hM : M < (sessionOutputs p inps).length), N < M → ∀ k : String,
    k ∈ ((sessionOutputs p inps).get ⟨N, hN⟩).starKeys →
    k ∉ ((sessionOutputs p inps).get ⟨M, hM⟩).starKeys := by
  intro inps
  induction inps with
  | nil => intro p N M hN _ _ k _; simp [sessionOutputs, runSession] at hN
  | cons inp rest ih =>
    intro p N M hN hM hNM k hk
    have hlen : (sessionOutputs p (inp :: rest)).length =
        (sessionOutputs (applyTick p inp).1 rest).length + 1 := by
      rw [sessionOutputs_cons]; rfl
    cases M with
    | zero => exact absurd hNM (Nat.not_lt_zero N)
    | succ m =>
      have hM' : m < (sessionOutputs (applyTick p inp).1 rest).length := by
        rw [hlen] at hM; omega
      cases N with
      | zero =>
        have hseen : k ∈ (applyTick p inp).1.seenStars :=
          at_disp_mem_s p inp k hk
        exact ss_seen_not_disp_s (applyTick p inp).1 rest k hseen _
          (List.get_mem _ m hM')
      | succ n =>
        have hN' : n < (sessionOutputs (applyTick p inp).1 rest).length := by
          rw [hlen] at hN; omega
        exact ih (applyTick p inp).1 n m hN' hM' (Nat.lt_of_succ_lt_succ hNM) k hk

/-- C1: within one enabled session, every event identity (notification ID
or star key) is dispatched at most once: each tick's dispatched
identities are duplicate-free, an identity dispatched at tick `N` is
never dispatched again at any later tick `M`, and the seen-sets only
grow across the session's ticks. -/
theorem dispatch_at_most_once (p : PluginState) (inps : List TickInput)
    (N M : Nat) (hN : N < (sessionOutputs p inps).length)
    (hM : M < (sessionOutputs p inps).length) (hNM : N < M) (k : String) :
    ((sessionOutputs p inps).get ⟨N, hN⟩).notifIds.Nodup ∧
    ((sessionOutputs p inps).get ⟨N, hN⟩).starKeys.Nodup ∧
    (k ∈ ((sessionOutputs p inps).get ⟨N, hN⟩).notifIds →
      k ∉ ((sessionOutputs p inps).get ⟨M, hM⟩).notifIds) ∧
    (k ∈ ((sessionOutputs p inps).get ⟨N, hN⟩).starKeys →
      k ∉ ((sessionOutputs p inps).get ⟨M, hM⟩).starKeys) ∧
    (∀ a ∈ p.seenNotifications, a ∈ (sessionState p inps).seenNotifications) ∧
    (∀ a ∈ p.seenStars, a ∈ (sessionState p inps).seenStars) := by
  refine ⟨?_, ?_, ?_, ?_, ?_, ?_⟩
  · exact (session_out_nodup inps p _ (List.get_mem _ N hN)).1
  · exact (session_out_nodup inps p _ (List.get_mem _ N hN)).2
  · exact session_disp_not_later_n inps p N M hN hM hNM k
  · exact session_disp_not_later_s inps p N M hN hM hNM k
  · exact fun a ha => ss_mono_n p inps a ha
  · exact fun a ha => ss_mono_s p inps a ha

/-- A concrete notification used by the witnesses. -/
def nA : GithubNotification := ⟨"N1", "repo", "title", "Issue", "url"⟩

/-- A concrete per-repository stargazer outcome used by the witnesses. -/
def repoA : RepoFetch := ⟨"repo", some ["alice"]⟩

/-- A concrete tick whose fetches both succeed. -/
def tickA : TickInput :=
  { notifFetch := some [nA], starFetch := some [repoA], sendOk := fun _ => true }

/-- A concrete enabled plugin state with one pre-seen notification ID. -/
def pW1 : PluginState :=
  { newPluginInstance 1 with
      enabled := true, watchStars := true, githubToken := "tok"
      seenNotifications := ["B"] }

/-- Witness for C1 at a concrete two-tick session. -/
theorem dispatch_at_most_once_witness :
    "B" ∈ (sessionState pW1 [tickA, tickA]).seenNotifications :=
  (dispatch_at_most_once pW1 [tickA, tickA] 0 1 (by decide) (by decide)
    (by decide) "N1").2.2.2.2.1 "B" (by decide)

theorem markRepoStars_sub (r : RepoFetch) (acc : List String) (a : String)
    (ha : a ∈ acc) : a ∈ markRepoStars acc r := by
  cases hr : r.stars with
  | none => simpa [markRepoStars, hr] using ha
  | some users => simp [markRepoStars, hr, List.mem_append, ha]

theorem foldl_markRepoStars_mono : ∀ (rs : List RepoFetch) (acc : List String)
    (a : String), a ∈ acc → a ∈ rs.foldl markRepoStars acc := by
  intro rs
  induction rs with
  | nil => intro acc a ha; simpa using ha
  | cons r rest ih =>
    intro acc a ha
    exact ih (markRepoStars acc r) a (markRepoStars_sub r acc a ha)

theorem foldl_markRepoStars_hit : ∀ (rs : List RepoFetch) (acc : List String)
    (r : RepoFetch), r ∈ rs → ∀ users, r.stars = some users → ∀ u ∈ users,
    starKey r.fullName u ∈ rs.foldl markRepoStars acc := by
  intro rs
  induction rs with
  | nil => intro acc r hr; simp at hr
  | cons r' rest ih =>
    intro acc r hr users hus u hu
    rcases List.mem_cons.mp hr with rfl | hr
    · refine foldl_markRepoStars_mono rest (markRepoStars acc r) _ ?_
      simp [markRepoStars, hus, List.mem_append]
      exact Or.inr ⟨u, hu, rfl⟩
    · exact ih (markRepoStars acc r') r hr users hus u hu

/-- C2: baseline population at Enable time dispatches no alert, marks
every observed notification ID seen, marks (when `watchStars` is set)
every observed star key seen, and no identity of the baseline snapshot is
ever dispatched during the session's ticks.  (Identities are "observed"
at baseline when the round trip that would carry them succeeded; a failed
notifications fetch makes `fetchInitialState` return early, so star
observation additionally requires the notifications fetch to have
succeeded.) -/
theorem baseline_marked_not_dispatched (p0 : PluginState) (binp : BaselineInput)
    (inps : List TickInput) :
    (enablePlugin p0 binp).dispatched = [] ∧
    (∀ ns, binp.notifFetch = some ns → ∀ n ∈ ns,
      n.id ∈ (enablePlugin p0 binp).state.seenNotifications ∧
      ∀ out ∈ sessionOutputs (enablePlugin p0 binp).state inps,
        n.id ∉ out.notifIds) ∧
    (p0.watchStars = true → ∀ ns repos, binp.notifFetch = some ns →
      binp.starFetch = some repos → ∀ r ∈ repos, ∀ users, r.stars = some users →
      ∀ u ∈ users,
        starKey r.fullName u ∈ (enablePlugin p0 binp).state.seenStars ∧
        ∀ out ∈ sessionOutputs (enablePlugin p0 binp).state inps,
          starKey r.fullName u ∉ out.starKeys) := by
  refine ⟨rfl, ?_, ?_⟩
  · intro ns hns n hn
    have hmem : n.id ∈ (enablePlugin p0 binp).state.seenNotifications := by
      show n.id ∈ (fetchInitialState p0.watchStars binp).1
      simp [fetchInitialState, hns]
      exact ⟨n, hn, rfl⟩
    exact ⟨hmem, ss_seen_not_disp_n _ inps n.id hmem⟩
  · intro hw ns repos hns hrs r hr users hus u hu
    have hmem : starKey r.fullName u ∈ (enablePlugin p0 binp).state.seenStars := by
      show starKey r.fullName u ∈ (fetchInitialState p0.watchStars binp).2
      simp [fetchInitialState, hns, hw, fetchInitialStars, hrs]
      exact foldl_markRepoStars_hit repos [] r hr users hus u hu
    exact ⟨hmem, ss_seen_not_disp_s _ inps _ hmem⟩

/-- A concrete plugin state (stars watched) for the C2 witness. -/
def pW2 : PluginState :=
  { newPluginInstance 2 with watchStars := true, githubToken := "tok" }

/-- A concrete baseline observation for the C2 witness. -/
def binpW2 : BaselineInput := { notifFetch := some [nA], starFetch := some [repoA] }

/-- Witness for C2 at a concrete baseline and a one-tick session. -/
theorem baseline_marked_not_dispatched_witness :
    "N1" ∈ (enablePlugin pW2 binpW2).state.seenNotifications ∧
    starKey "repo" "alice" ∈ (enablePlugin pW2 binpW2).state.seenStars :=
  ⟨((baseline_marked_not_dispatched pW2 binpW2 [tickA]).2.1 [nA] rfl nA
      (by decide)).1,
   ((baseline_marked_not_dispatched pW2 binpW2 [tickA]).2.2 rfl [nA] [repoA]
      rfl rfl repoA (by decide) ["alice"] rfl "alice" (by decide)).1⟩

/-- A baseline observation in which both fetches fail. -/
def binpFail : BaselineInput := { notifFetch := none, starFetch := none }

/-- Counterexample for C3: `Enable` on a freshly constructed plugin whose
token is empty does NOT fail — it returns `nil`, transitions to enabled,
and still issues the baseline notifications fetch (a network call).  The
claim (fails with a configuration error, stays disabled, zero network
calls) is false on the code: `Enable` performs no validation at all. -/
theorem enable_empty_token_counterexample :
    (newPluginInstance 3).githubToken = "" ∧
    (enablePlugin (newPluginInstance 3) binpFail).err = none ∧
    (enablePlugin (newPluginInstance 3) binpFail).state.enabled = true ∧
    (enablePlugin (newPluginInstance 3) binpFail).calls = [NetCall.notifications] ∧
    (enablePlugin (newPluginInstance 3) binpFail).calls ≠ [] := by decide

/-- C3 (amended): `Enable` performs no token validation: even with an
empty configured token it returns `nil`, sets the plugin enabled, and
issues the baseline notifications fetch; an empty token is rejected only
by `ValidateAndSetConfig`. -/
theorem enable_no_token_validation (p : PluginState) (binp : BaselineInput)
    (h : p.githubToken = "") :
    (enablePlugin p binp).err = none ∧
    (enablePlugin p binp).state.enabled = true ∧
    (enablePlugin p binp).calls = fetchInitialStateCalls p.watchStars binp ∧
    NetCall.notifications ∈ (enablePlugin p binp).calls ∧
    (validateAndSetConfig p ⟨true, true, p.githubToken, 60, "", false⟩).1 ≠ none := by
  refine ⟨rfl, rfl, rfl, ?_, ?_⟩
  · show NetCall.notifications ∈ fetchInitialStateCalls p.watchStars binp
    exact List.mem_cons_self _ _
  · simp [validateAndSetConfig, h]

/-- Witness for the amended C3 at a concrete empty-token state. -/
theorem enable_no_token_validation_witness :
    (enablePlugin (newPluginInstance 11) binpFail).err = none :=
  (enable_no_token_validation (newPluginInstance 11) binpFail rfl).1

/-- A decoded configuration with a non-empty token and a zero interval. -/
def rawBad : RawConfig :=
  { marshalOk := true, unmarshalOk := true, token := "ghp_x", interval := 0,
    appToken := "", watchStars := false }

/-- C4: `ValidateAndSetConfig` accepts a configuration whose token is
non-empty and whose interval is 0 — it returns `nil` and stores the
nonpositive interval, violating the claimed invariant
`pollIntervalSeconds > 0` (and `time.NewTicker` would then panic in
`startPolling` once the plugin is enabled). -/
theorem validate_accepts_nonpositive_interval :
    (validateAndSetConfig (newPluginInstance 4) rawBad).1 = none ∧
    (validateAndSetConfig (newPluginInstance 4) rawBad).2.pollIntervalSec = 0 ∧
    ¬ (0 : Int) < (validateAndSetConfig (newPluginInstance 4) rawBad).2.pollIntervalSec := by
  decide

/-! The send verdict never influences the computation (the code only
logs it). -/

theorem pn_sendOk_irrel (f g : String → Bool) (ns : List GithubNotification) :
    ∀ seen, processNotifications f seen ns = processNotifications g seen ns := by
  induction ns with
  | nil => intro seen; rfl
  | cons n rest ih =>
    intro seen
    by_cases h : n.id ∈ seen
    · simp only [processNotifications, if_pos h]; exact ih seen
    · simp only [processNotifications, if_neg h]; rw [ih (n.id :: seen)]

theorem psu_sendOk_irrel (f g : String → Bool) (repo : String) (us : List String) :
    ∀ seen, processStarUsers f repo seen us = processStarUsers g repo seen us := by
  induction us with
  | nil => intro seen; rfl
  | cons u rest ih =>
    intro seen
    by_cases h : starKey repo u ∈ seen
    · simp only [processStarUsers, if_pos h]; exact ih seen
    · simp only [processStarUsers, if_neg h]; rw [ih (starKey repo u :: seen)]

theorem pr_sendOk_irrel (f g : String → Bool) (rs : List RepoFetch) :
    ∀ seen, processRepos f seen rs = processRepos g seen rs := by
  induction rs with
  | nil => intro seen; rfl
  | cons r rest ih =>
    intro seen
    cases hr : r.stars with
    | none => simp only [processRepos, hr]; exact ih seen
    | some users =>
      simp only [processRepos, hr]
      rw [psu_sendOk_irrel f g r.fullName users seen, ih]

theorem applyTick_sendOk_irrel (p : PluginState) (inp : TickInput)
    (f g : String → Bool) :
    applyTick p { inp with sendOk := f } = applyTick p { inp with sendOk := g } := by
  by_cases hw : p.watchStars <;>
  · simp only [applyTick, hw, checkNotifications, checkStars]
    cases hn : inp.notifFetch <;> cases hs : inp.starFetch <;>
      simp [pn_sendOk_irrel f g, pr_sendOk_irrel f g]

theorem runSession_sendOk_irrel (inps : List TickInput) :
    ∀ (p : PluginState) (f g : String → Bool),
    runSession p (inps.map (fun i => { i with sendOk := f })) =
      runSession p (inps.map (fun i => { i with sendOk := g })) := by
  induction inps with
  | nil => intro p f g; rfl
  | cons inp rest ih =>
    intro p f g
    simp only [List.map_cons, runSession]
    rw [applyTick_sendOk_irrel p inp f g, ih]

/-- C8: a rejected alert only gets logged — the tick's resulting state
and dispatched identities are independent of the message handler's
verdicts (for a whole session as well), and a dispatched identity is
marked seen, stays seen for the rest of the session, and is never
dispatched again at any later tick, whatever the verdicts were. -/
theorem dispatch_error_only_logged (p : PluginState) (inp : TickInput)
    (inps : List TickInput) (f g : String → Bool) (k : String) :
    applyTick p { inp with sendOk := f } = applyTick p { inp with sendOk := g } ∧
    runSession p (inps.map (fun i => { i with sendOk := f })) =
      runSession p (inps.map (fun i => { i with sendOk := g })) ∧
    (k ∈ (applyTick p inp).2.notifIds →
      k ∈ (applyTick p inp).1.seenNotifications ∧
      (∀ out ∈ sessionOutputs (applyTick p inp).1 inps, k ∉ out.notifIds) ∧
      k ∈ (sessionState (applyTick p inp).1 inps).seenNotifications) ∧
    (k ∈ (applyTick p inp).2.starKeys →
      k ∈ (applyTick p inp).1.seenStars ∧
      (∀ out ∈ sessionOutputs (applyTick p inp).1 inps, k ∉ out.starKeys) ∧
      k ∈ (sessionState (applyTick p inp).1 inps).seenStars) := by
  refine ⟨applyTick_sendOk_irrel p inp f g, runSession_sendOk_irrel inps p f g,
    ?_, ?_⟩
  · intro hk
    have hs := at_disp_mem_n p inp k hk
    exact ⟨hs, ss_seen_not_disp_n _ inps k hs, ss_mono_n _ inps k hs⟩
  · intro hk
    have hs := at_disp_mem_s p inp k hk
    exact ⟨hs, ss_seen_not_disp_s _ inps k hs, ss_mono_s _ inps k hs⟩

/-- A tick whose send verdict is always failure, for the C8 witness. -/
def tickRejectAll : TickInput :=
  { notifFetch := some [nA], starFetch := some [repoA], sendOk := fun _ => false }

/-- Witness for C8: even with every send rejected, the dispatched
notification ID is marked seen. -/
theorem dispatch_error_only_logged_witness :
    "N1" ∈ (applyTick pW2 tickRejectAll).1.seenNotifications :=
  ((dispatch_error_only_logged pW2 tickRejectAll [] (fun _ => false)
      (fun _ => true) "N1").2.2.1 (by decide)).1

/-- C6: a failed notifications fetch in a tick is non-fatal: nothing is
dispatched for notifications and their seen map is untouched, but the
star-check phase (with `watchStars` set) still runs in that same tick —
its output and seen map are exactly `checkStars` on this tick's star
fetches — the periodic task does not terminate, and every subsequent
scheduled tick still fires (the session processes one output per tick). -/
theorem notif_fetch_failure_nonfatal (p : PluginState) (inp : TickInput)
    (inps : List TickInput) (hw : p.watchStars = true)
    (hf : inp.notifFetch = none) :
    (applyTick p inp).2.notifIds = [] ∧
    (applyTick p inp).1.seenNotifications = p.seenNotifications ∧
    (applyTick p inp).2.starKeys = (checkStars inp.sendOk p.seenStars inp.starFetch).2 ∧
    (applyTick p inp).1.seenStars = (checkStars inp.sendOk p.seenStars inp.starFetch).1 ∧
    sessionOutputs p (inp :: inps) =
      (applyTick p inp).2 :: sessionOutputs (applyTick p inp).1 inps ∧
    (sessionOutputs p (inp :: inps)).length = inps.length + 1 := by
  refine ⟨?_, ?_, ?_, ?_, rfl, ?_⟩
  · simp [applyTick, hw, hf, checkNotifications]
  · simp [applyTick, hw, hf, checkNotifications]
  · simp [applyTick, hw]
  · simp [applyTick, hw]
  · simp [sessionOutputs_length]

/-- An enabled star-watching plugin state for the C6 witness. -/
def pW6 : PluginState :=
  { newPluginInstance 7 with enabled := true, watchStars := true, githubToken := "tok" }

/-- A tick whose notifications fetch fails while the star fetches succeed. -/
def tickNotifFail : TickInput :=
  { notifFetch := none, starFetch := some [repoA], sendOk := fun _ => true }

/-- Witness for C6 at a concrete failing tick: the star phase ran. -/
theorem notif_fetch_failure_nonfatal_witness :
    (applyTick pW6 tickNotifFail).2.starKeys =
      (checkStars tickNotifFail.sendOk pW6.seenStars tickNotifFail.starFetch).2 :=
  (notif_fetch_failure_nonfatal pW6 tickNotifFail [] rfl rfl).2.2.1

/-- C7: with `watchStars` unset, neither the repository-list fetch nor
any stargazer fetch is ever issued: the baseline issues exactly the one
notifications call, and a session of any number of ticks issues exactly
one notifications call per tick and nothing else. -/
theorem watch_stars_off_no_star_calls (p0 : PluginState) (binp : BaselineInput)
    (inps : List TickInput) (hw : p0.watchStars = false) :
    (enablePlugin p0 binp).calls = [NetCall.notifications] ∧
    sessionCalls p0.watchStars inps =
      List.replicate inps.length NetCall.notifications ∧
    (∀ c ∈ (enablePlugin p0 binp).calls ++ sessionCalls p0.watchStars inps,
      c = NetCall.notifications) := by
  have hbase : (enablePlugin p0 binp).calls = [NetCall.notifications] := by
    show fetchInitialStateCalls p0.watchStars binp = _
    cases hnb : binp.notifFetch <;> simp [fetchInitialStateCalls, hnb, hw]
  have hsess : sessionCalls p0.watchStars inps =
      List.replicate inps.length NetCall.notifications := by
    rw [hw]
    induction inps with
    | nil => rfl
    | cons inp rest ih =>
      simpa [sessionCalls, tickCalls, List.replicate_succ] using ih
  refine ⟨hbase, hsess, ?_⟩
  intro c hc
  rw [hbase, hsess] at hc
  rcases List.mem_append.mp hc with hc | hc
  · simpa using hc
  · exact List.eq_of_mem_replicate hc

/-- Witness for C7 at a concrete baseline and two-tick session. -/
theorem watch_stars_off_no_star_calls_witness :
    (enablePlugin (newPluginInstance 8) binpW2).calls = [NetCall.notifications] :=
  (watch_stars_off_no_star_calls (newPluginInstance 8) binpW2 [tickA, tickA] rfl).1

/-- C9: configuration validation is atomic: whenever
`ValidateAndSetConfig` (and hence `ApplyConfig`, which merely delegates)
returns an error — marshal failure, unmarshal failure, or empty token —
the plugin state is left exactly as it was; the configuration fields are
written only after every check has passed. -/
theorem config_validation_atomic (p : PluginState) (raw : RawConfig)
    (herr : (validateAndSetConfig p raw).1 ≠ none) :
    (validateAndSetConfig p raw).2 = p ∧
    applyConfig p raw = validateAndSetConfig p raw := by
  refine ⟨?_, rfl⟩
  simp only [validateAndSetConfig] at herr ⊢
  split_ifs at herr ⊢ with h1 h2 h3
  · rfl
  · rfl
  · rfl
  · exact absurd rfl herr

/-- A decoded configuration whose token is empty (rejected). -/
def rawEmptyTok : RawConfig :=
  { marshalOk := true, unmarshalOk := true, token := "", interval := 30,
    appToken := "x", watchStars := true }

/-- Witness for C9: rejecting an empty-token payload leaves the state
untouched. -/
theorem config_validation_atomic_witness :
    (validateAndSetConfig (newPluginInstance 9) rawEmptyTok).2 =
      newPluginInstance 9 :=
  (config_validation_atomic (newPluginInstance 9) rawEmptyTok (by decide)).1

/-- A running system: one enabled plugin, one polling loop at its select. -/
def sysC5S0 : Sys :=
  { plug := { newPluginInstance 5 with enabled := true, githubToken := "tok" }
    chanGen := 0
    nextGen := 1
    closed := []
    loops := [LoopPC.atSelect] }

/-- A tick observation carrying one new notification. -/
def tickC5 : TickInput :=
  { notifFetch := some [nA], starFetch := none, sendOk := fun _ => true }

/-- The system after the loop has taken the ticker branch. -/
def sysC5S1 : Sys := { sysC5S0 with loops := sysC5S0.loops.set 0 (LoopPC.inTick tickC5) }

/-- The system after `Disable` has returned while the tick is in flight. -/
def sysC5S2 : Sys := disableSys sysC5S1

/-- The system after the in-flight tick body ran to completion. -/
def sysC5S3 : Sys := tickSys sysC5S2 0 tickC5

/-- Counterexample for C5: a valid interleaving in which a tick is in
flight when `Disable` runs — `Disable` only closes the stop channel and
returns, it does not wait for the polling goroutine — so an alert
(notification "N1") is dispatched strictly after `Disable` has returned. -/
theorem disable_inflight_dispatch_counterexample :
    Trace sysC5S0 [Label.tau, Label.disableRet, Label.dispatch 0 ["N1"]] sysC5S3 ∧
    postDisableDispatches
      [Label.tau, Label.disableRet, Label.dispatch 0 ["N1"]] =
      [Label.dispatch 0 ["N1"]] := by
  constructor
  · refine Trace.cons (Step.selectTick sysC5S0 0 tickC5 rfl) ?_
    refine Trace.cons (Step.disableCall sysC5S1) ?_
    refine Trace.cons (Step.runTickBody sysC5S2 0 tickC5 ["N1"] rfl (by decide)) ?_
    exact Trace.nil sysC5S3
  · decide

/-- C5 (amended): `Disable` signals cancellation by closing the stop
channel but returns without waiting, so an in-flight tick may still
dispatch after `Disable` returns (see the counterexample); however, once
every polling goroutine has observed the stop signal and exited, no
dispatch step of any kind occurs in any continuation that performs no
further `Enable`. -/
theorem disableSys_loops (s : Sys) : (disableSys s).loops = s.loops := by
  unfold disableSys; split <;> rfl

theorem no_dispatch_after_loops_exit : ∀ (s : Sys) (ls : List Label) (s' : Sys),
    Trace s ls s' → (∀ pc ∈ s.loops, pc = LoopPC.exited) →
    Label.enableRet ∉ ls → ∀ i ids, Label.dispatch i ids ∉ ls := by
  intro s ls s' htr
  induction htr with
  | nil => intro _ _ i ids; exact List.not_mem_nil _
  | cons hstep htail ih =>
    intro hex hen i ids hmem
    cases hstep with
    | selectTick i0 inp h =>
      exact nomatch hex _ (List.get?_mem h)
    | selectStop i0 h hc =>
      exact nomatch hex _ (List.get?_mem h)
    | runTickBody i0 inp ids0 h hids =>
      exact nomatch hex _ (List.get?_mem h)
    | enableCall inp =>
      exact hen (List.mem_cons_self _ _)
    | disableCall =>
      rcases List.mem_cons.mp hmem with heq | hmem'
      · exact nomatch heq
      · refine ih ?_ (fun hm => hen (List.mem_cons_of_mem _ hm)) i ids hmem'
        intro pc hpc
        rw [disableSys_loops] at hpc
        exact hex pc hpc

/-- A system whose only polling loop has already exited. -/
def sysExited : Sys :=
  { plug := newPluginInstance 6
    chanGen := 0
    nextGen := 1
    closed := [0]
    loops := [LoopPC.exited] }

/-- Witness for the amended C5: from an all-exited system, a `Disable`
step dispatches nothing. -/
theorem no_dispatch_after_loops_exit_witness :
    Label.dispatch 0 ["N1"] ∉ [Label.disableRet] :=
  no_dispatch_after_loops_exit sysExited [Label.disableRet] (disableSys sysExited)
    (Trace.cons (Step.disableCall sysExited) (Trace.nil (disableSys sysExited)))
    (fun pc hpc => List.mem_singleton.mp hpc)
    (by decide) 0 ["N1"]

/-- A fresh plugin instance with no polling loop yet. -/
def sysC10S0 : Sys :=
  { plug := { newPluginInstance 10 with githubToken := "tok" }
    chanGen := 0
    nextGen := 1
    closed := []
    loops := [] }

/-- After the first `Enable`: one loop (index 0), stop channel 1. -/
def sysC10S1 : Sys := enableSys sysC10S0 binpFail

/-- After a second `Enable` while still enabled: a second loop (index 1)
and a replacement stop channel (generation 2). -/
def sysC10S2 : Sys := enableSys sysC10S1 binpFail

/-- After the subsequent `Disable`, which closes the replacement channel. -/
def sysC10S3 : Sys := disableSys sysC10S2

/-- After the loop started by the FIRST `Enable` observes, at its select,
that the channel currently stored in the `stopChannel` field is closed,
and exits. -/
def sysC10S4 : Sys := { sysC10S3 with loops := sysC10S3.loops.set 0 LoopPC.exited }

/-- Counterexample for C10's final clause: the polling loop started by an
earlier `Enable` IS signalled to stop by a subsequent `Disable`.  The
`select` in `startPolling` re-reads the `stopChannel` field on every
iteration, so after `Enable`–`Enable`–`Disable` the first loop (index 0,
still at its select) observes the closed replacement channel and exits. -/
theorem reenable_old_loop_signalled_counterexample :
    Trace sysC10S0 [Label.enableRet, Label.enableRet, Label.disableRet, Label.tau]
      sysC10S4 ∧
    sysC10S1.loops.get? 0 = some LoopPC.atSelect ∧
    sysC10S4.loops.get? 0 = some LoopPC.exited := by
  refine ⟨?_, rfl, rfl⟩
  refine Trace.cons (Step.enableCall sysC10S0 binpFail) ?_
  refine Trace.cons (Step.enableCall sysC10S1 binpFail) ?_
  refine Trace.cons (Step.disableCall sysC10S2) ?_
  refine Trace.cons (Step.selectStop sysC10S3 0 rfl (by decide)) ?_
  exact Trace.nil sysC10S4

/-- C10 (amended): `Enable` while already enabled is neither rejected nor
a no-op: it returns `nil`, clears both seen-sets down to the new baseline,
re-runs baseline population, starts an additional polling loop and
replaces the stop channel; but — because the polling loop re-reads the
`stopChannel` field at every select — a subsequent `Disable`, which
closes the replacement channel, signals EVERY loop still at its select,
those of earlier `Enable`s included. -/
theorem reenable_behavior (s : Sys) (inp : BaselineInput)
    (hen : s.plug.enabled = true) :
    (enablePlugin s.plug inp).err = none ∧
    (enablePlugin s.plug inp).state.enabled = true ∧
    (enablePlugin s.plug inp).state.seenNotifications =
      (fetchInitialState s.plug.watchStars inp).1 ∧
    (enablePlugin s.plug inp).state.seenStars =
      (fetchInitialState s.plug.watchStars inp).2 ∧
    Step s Label.enableRet (enableSys s inp) ∧
    (enableSys s inp).loops.length = s.loops.length + 1 ∧
    (enableSys s inp).chanGen = s.nextGen ∧
    (disableSys (enableSys s inp)).closed = s.nextGen :: s.closed ∧
    (∀ i, (disableSys (enableSys s inp)).loops.get? i = some LoopPC.atSelect →
      Step (disableSys (enableSys s inp)) Label.tau
        { disableSys (enableSys s inp) with
            loops := (disableSys (enableSys s inp)).loops.set i LoopPC.exited }) := by
  have henNew : (enableSys s inp).plug.enabled = true := rfl
  have hdis : disableSys (enableSys s inp) =
      { enableSys s inp with
          plug := { (enableSys s inp).plug with enabled := false }
          closed := (enableSys s inp).chanGen :: (enableSys s inp).closed } := by
    unfold disableSys
    rw [if_pos henNew]
  refine ⟨rfl, rfl, rfl, rfl, Step.enableCall s inp, ?_, rfl, ?_, ?_⟩
  · simp [enableSys]
  · rw [hdis]; rfl
  · intro i h
    refine Step.selectStop (disableSys (enableSys s inp)) i h ?_
    rw [hdis]
    exact List.mem_cons_self _ _

/-- Witness for the amended C10 at a concrete enabled system. -/
theorem reenable_behavior_witness :
    (enableSys sysC10S1 binpFail).loops.length = sysC10S1.loops.length + 1 :=
  (reenable_behavior sysC10S1 binpFail rfl).2.2.2.2.2.1
